import Mathlib

/-!
# A shallow embedding of the jsrpc-browser pipelined-RPC demo

The repository has one server file (`src/worker.js`, a WebSocket message
handler with per-connection question bookkeeping) and one client page
(the React demo, with `callPipelined` / `awaitResult` and a `ws.onmessage`
demultiplexer).  This file embeds both peers' state machines and proves
properties of the pipelining protocol.

Conventions of the embedding:
* JSON values are modelled by `Value`; numbers are integers (the protocol
  only ever carries integer ids and strings).
* Maps (`questionsInFlight` / `callsInFlight`) are association lists;
  `Map.set` of a fresh key appends, `Map.delete` removes the key.
* Each inbound Call is handled as an asynchronous unit.  The handler runs
  synchronously up to its first genuine suspension point: either it waits on
  another question's promise (a `PendingCall` task) or the example method
  awaits its `setTimeout` (a `PendingTimer`).  Timer firings and message
  arrivals are the events of an explicit schedule, so every interleaving of
  the real event loop is expressible.
* JSON decoding itself is out of scope; inbound data is either a decoded
  message or `invalid` (undecodable text).
-/

mutual

/-- A structured JSON-like value as produced by the text codec. -/
inductive Value where
  | null
  | undefined
  | bool (b : Bool)
  | num (n : Int)
  | str (s : String)
  | arr (xs : ValueList)
  | obj (fields : FieldList)
deriving DecidableEq, Repr

/-- Elements of a JSON array. -/
inductive ValueList where
  | nil
  | cons (v : Value) (vs : ValueList)
deriving DecidableEq, Repr

/-- Fields of a JSON object, in insertion order; keys are unique
(`JSON.parse` keeps one binding per key). -/
inductive FieldList where
  | nil
  | cons (k : String) (v : Value) (vs : FieldList)
deriving DecidableEq, Repr

end

namespace FieldList

/-- First binding of key `k`, mirroring JS property lookup. -/
def getField : FieldList → String → Option Value
  | .nil, _ => none
  | .cons k v vs, key => if k = key then some v else getField vs key

/-- The JS `key in obj` test. -/
def hasField : FieldList → String → Bool
  | .nil, _ => false
  | .cons k _ vs, key => k = key || hasField vs key

end FieldList

mutual

/-- JS `ToString` on the values of this protocol. -/
def jsToString : Value → String
  | .null => "null"
  | .undefined => "undefined"
  | .bool b => if b then "true" else "false"
  | .num n => toString n
  | .str s => s
  | .arr xs => jsToStringElems xs
  | .obj _ => "[object Object]"

/-- `Array.prototype.toString`: elements joined by commas, `null` and
`undefined` elements rendered empty. -/
def jsToStringElems : ValueList → String
  | .nil => ""
  | .cons .null .nil => ""
  | .cons .undefined .nil => ""
  | .cons v .nil => jsToString v
  | .cons .null vs => "," ++ jsToStringElems vs
  | .cons .undefined vs => "," ++ jsToStringElems vs
  | .cons v vs => jsToString v ++ "," ++ jsToStringElems vs

end

/-- Operands whose `ToPrimitive` image is a string, making `+` concatenate. -/
def isStringish : Value → Bool
  | .str _ => true
  | .arr _ => true
  | .obj _ => true
  | _ => false

/-- JS `ToNumber` on the non-string primitives of this protocol.  (`undefined`
maps to NaN in JS; NaN is outside the integer value model and is never
produced by the demo methods, which only ever add strings.) -/
def toNumber : Value → Int
  | .num n => n
  | .bool b => if b then 1 else 0
  | _ => 0

/-- The JS `+` operator as used by `appendSuffix` (`text + suffix`). -/
def jsAdd (a b : Value) : Value :=
  if isStringish a || isStringish b then .str (jsToString a ++ jsToString b)
  else .num (toNumber a + toNumber b)

/-! ## Wire messages -/

/-- A decoded inbound frame as seen by the worker's message listener:
undecodable text, a Call, or anything else (ignored by the listener). -/
inductive InMsg where
  | invalid
  | call (questionId : Value) (method : String) (params : List Value)
  | other
deriving DecidableEq, Repr

/-- An outbound frame sent by the worker (`server.send`). -/
inductive Frame where
  | ret (answerId : Value) (result : Value)
  | exc (answerId : Value) (error : String)
deriving DecidableEq, Repr

/-! ## The worker's per-connection state -/

/-- One entry of `questionsInFlight`.  The `promise/resolve/reject` slots are
represented by the blocked tasks themselves; `rejected` records whether the
entry's reject continuation has ever been invoked (the worker never invokes
it). -/
structure QEntry where
  done : Bool
  result : Value
  rejected : Bool
deriving DecidableEq, Repr

/-- A Call handler suspended inside `await Promise.all`: each parameter is
either already resolved or still waiting on another question. -/
inductive ParamRes where
  | val (v : Value)
  | blockedOn (qid : Value)
deriving DecidableEq, Repr

/-- A Call whose parameter resolution is suspended on other questions. -/
structure PendingCall where
  questionId : Value
  method : String
  items : List ParamRes
deriving DecidableEq, Repr

/-- A handler suspended on its `setTimeout`; firing it computes the result. -/
structure PendingTimer where
  questionId : Value
  method : String
  args : List Value
deriving DecidableEq, Repr

/-- The per-connection server state. -/
structure SState where
  questionsInFlight : List (Value × QEntry)
  tasks : List PendingCall
  timers : List PendingTimer
deriving DecidableEq, Repr

/-- State of a freshly accepted connection. -/
def SState.initial : SState := ⟨[], [], []⟩

/-- Step 1 of the Call branch: mark the question as in flight right away
(`if (!questionsInFlight.has(questionId)) questionsInFlight.set(...)`). -/
def registerQuestion (tbl : List (Value × QEntry)) (qid : Value) :
    List (Value × QEntry) :=
  if (tbl.lookup qid).isSome then tbl
  else tbl ++ [(qid, ⟨false, .null, false⟩)]

/-- `maybeResolveParam(param)`: a non-null object with a `resultOf` property
references another call's result; it fails on an unknown id, yields the value
if that call is done, and otherwise waits on its promise.  Every other value
is returned as is. -/
def maybeResolveParam (tbl : List (Value × QEntry)) (param : Value) :
    Except String ParamRes :=
  match param with
  | .obj fields =>
    if fields.hasField "resultOf" then
      let refId := (fields.getField "resultOf").getD .undefined
      match tbl.lookup refId with
      | none => .error ("Reference to unknown call #" ++ jsToString refId)
      | some q => if q.done then .ok (.val q.result) else .ok (.blockedOn refId)
    else .ok (.val param)
  | _ => .ok (.val param)

/-- The shape test of `maybeResolveParam`: a truthy value of type `object`
other than `null` with a `resultOf` property.  (Arrays have no `resultOf`
property, and no other value passes the `typeof` test.) -/
def isRefParam : Value → Bool
  | .obj fields => fields.hasField "resultOf"
  | _ => false

/-- `await Promise.all(params.map(p => maybeResolveParam(p)))`: every
parameter is examined at once against the same table; the first failure (in
parameter order — all throws happen synchronously) rejects the whole
resolution. -/
def resolveCallParams (tbl : List (Value × QEntry)) :
    List Value → Except String (List ParamRes)
  | [] => .ok []
  | p :: ps =>
    match maybeResolveParam tbl p with
    | .error e => .error e
    | .ok r =>
      match resolveCallParams tbl ps with
      | .error e => .error e
      | .ok rs => .ok (r :: rs)

/-- Whether a suspended resolution has no remaining dependency. -/
def allResolved (items : List ParamRes) : Bool :=
  items.all fun r => match r with | .val _ => true | .blockedOn _ => false

/-- The resolved argument list of a ready task. -/
def resolvedArgsOf (items : List ParamRes) : List Value :=
  items.map fun r => match r with | .val v => v | .blockedOn _ => .undefined

/-- The body of an example method, evaluated when its timer fires.
`makeGreeting(name)` returns `` `Hello, ${name}!` ``; `appendSuffix(text,
suffix)` returns `text + suffix`.  Timers exist only for these two methods. -/
def runMethodBody (method : String) (args : List Value) : Value :=
  match method with
  | "makeGreeting" => .str ("Hello, " ++ jsToString (args.getD 0 .undefined) ++ "!")
  | "appendSuffix" => jsAdd (args.getD 0 .undefined) (args.getD 1 .undefined)
  | _ => .undefined

/-- Step 3 of the Call branch, entered with fully resolved arguments: a known
method starts running and suspends on its `setTimeout`; an unknown method sets
`error`, which step 4 turns into an Exception frame at once. -/
def dispatchCall (st : SState) (qid : Value) (method : String)
    (args : List Value) : SState × List Frame :=
  if method = "makeGreeting" || method = "appendSuffix" then
    ({st with timers := st.timers ++ [⟨qid, method, args⟩]}, [])
  else
    (st, [.exc qid ("Unknown method \"" ++ method ++ "\"")])

/-- Wake step: substitute question `qid`'s result into every suspended
resolution that was waiting on it. -/
def wakeWaiters (tasks : List PendingCall) (qid : Value) (result : Value) :
    List PendingCall :=
  tasks.map fun t =>
    { t with items := t.items.map fun r =>
        if r = .blockedOn qid then .val result else r }

/-- Dispatch, in wake order, every task whose resolution just completed. -/
def dispatchReady (st : SState) (ready : List PendingCall) :
    SState × List Frame :=
  match ready with
  | [] => (st, [])
  | t :: ts =>
    let d := dispatchCall st t.questionId t.method (resolvedArgsOf t.items)
    let rest := dispatchReady d.1 ts
    (rest.1, d.2 ++ rest.2)

/-- The table update of `finalizeQuestion`: `entry.done = true;
entry.result = result` on the matching entry. -/
def finalizeEntry (qId : Value) (result : Value) (kv : Value × QEntry) :
    Value × QEntry :=
  if kv.1 = qId then (kv.1, { kv.2 with done := true, result := result })
  else kv

/-- `finalizeQuestion(qId, result)`: set `done` and `result` on the table
entry, and invoke its resolve continuation, waking every parameter resolution
suspended on it.  Returns the state together with the frames produced by the
woken handlers (which run after the caller's own `server.send`). -/
def finalizeQuestion (st : SState) (qId : Value) (result : Value) :
    SState × List Frame :=
  let tbl := st.questionsInFlight.map (finalizeEntry qId result)
  let woken := wakeWaiters st.tasks qId result
  let ready := woken.filter fun t => allResolved t.items
  let blocked := woken.filter fun t => !allResolved t.items
  dispatchReady { st with questionsInFlight := tbl, tasks := blocked } ready

/-- The earliest pending `setTimeout` fires: the suspended handler computes
its result, `finalizeQuestion` runs, and the Return frame is sent (any frames
from handlers woken by the finalization follow it). -/
def fireTimer (st : SState) : SState × List Frame :=
  match st.timers with
  | [] => (st, [])
  | t :: rest =>
    let result := runMethodBody t.method t.args
    let fin := finalizeQuestion { st with timers := rest } t.questionId result
    (fin.1, Frame.ret t.questionId result :: fin.2)

/-- The worker's `message` listener, run to its first genuine suspension:
undecodable frames get `Exception{answerId:0}`; a Call is registered, its
parameters resolved, and then either it suspends on a dependency, aborts with
an Exception, or its handler starts and suspends on its timer.  Non-call
messages are ignored. -/
def handleMessage (st : SState) (m : InMsg) : SState × List Frame :=
  match m with
  | .invalid => (st, [.exc (.num 0) "Invalid JSON"])
  | .other => (st, [])
  | .call questionId method params =>
    let tbl := registerQuestion st.questionsInFlight questionId
    let st1 := { st with questionsInFlight := tbl }
    match resolveCallParams tbl params with
    | .error e => (st1, [.exc questionId e])
    | .ok items =>
      if allResolved items then
        dispatchCall st1 questionId method (resolvedArgsOf items)
      else
        ({ st1 with tasks := st1.tasks ++ [⟨questionId, method, items⟩] }, [])

/-- An event of the connection's schedule: an inbound frame arrives, or the
earliest pending timer fires. -/
inductive SEv where
  | recv (m : InMsg)
  | timer
deriving DecidableEq, Repr

/-- One scheduled event. -/
def serverStep (st : SState) : SEv → SState × List Frame
  | .recv m => handleMessage st m
  | .timer => fireTimer st

/-- Run a schedule, concatenating the emitted frames in order. -/
def serverRun (st : SState) : List SEv → SState × List Frame
  | [] => (st, [])
  | e :: es =>
    let s1 := serverStep st e
    let s2 := serverRun s1.1 es
    (s2.1, s1.2 ++ s2.2)

/-! ## The issuer (browser) side -/

/-- One entry of the page's `callsInFlight` map. -/
structure CEntry where
  done : Bool
  result : Value
deriving DecidableEq, Repr

/-- The page's state: socket openness, the id counter, and the call table. -/
structure ClientState where
  wsOpen : Bool
  nextQuestionId : Int
  callsInFlight : List (Value × CEntry)
deriving DecidableEq, Repr

/-- A convenient pipeline reference value `{resultOf: id}`. -/
def refTo (id : Value) : Value := .obj (.cons "resultOf" id .nil)

/-- `callPipelined(method, params)`: with the socket open, allocate the next
id, register it, send the Call, and return `{resultOf: questionId}`
synchronously; with the socket not open, send nothing and return the
`{resultOf: -1}` sentinel.  The middle component is the frame sent, if any. -/
def callPipelined (cst : ClientState) (method : String) (params : List Value) :
    ClientState × Option InMsg × Value :=
  if !cst.wsOpen then (cst, none, refTo (.num (-1)))
  else
    let questionId := cst.nextQuestionId
    ({ cst with
        nextQuestionId := questionId + 1,
        callsInFlight :=
          cst.callsInFlight ++ [(.num questionId, ⟨false, .null⟩)] },
      some (.call (.num questionId) method params),
      refTo (.num questionId))

/-- Outcome of `awaitResult(ref)`, an async function: a synchronous throw
(rejection), an immediate value, or suspension on the entry's promise. -/
inductive AwaitOutcome where
  | thrown (msg : String)
  | value (v : Value)
  | pending
deriving DecidableEq, Repr

/-- `awaitResult(ref)`: non-references throw; an unregistered id throws
`No call in flight for #id`; a done entry returns its result; otherwise the
caller suspends on the entry's promise. -/
def awaitResult (cst : ClientState) (ref : Value) : AwaitOutcome :=
  match ref with
  | .obj fields =>
    if fields.hasField "resultOf" then
      let qId := (fields.getField "resultOf").getD .undefined
      match cst.callsInFlight.lookup qId with
      | none => .thrown ("No call in flight for #" ++ jsToString qId)
      | some entry => if entry.done then .value entry.result else .pending
    else .thrown "Not a pipeline reference"
  | _ => .thrown "Not a pipeline reference"

/-- A decoded inbound frame as seen by the page's `ws.onmessage`. -/
inductive ClientIn where
  | invalid
  | ret (answerId : Value) (result : Value)
  | exc (answerId : Value) (error : String)
  | unknown
deriving DecidableEq, Repr

/-- JS `Map.delete`. -/
def deleteKey (tbl : List (Value × CEntry)) (k : Value) :
    List (Value × CEntry) :=
  tbl.filter fun kv => !(kv.1 == k)

/-- `ws.onmessage`: a Return marks the matching entry done, wakes its waiter
with the result, and deletes the entry from `callsInFlight`; an Exception
rejects the waiter and deletes the entry; undecodable and unknown messages are
only logged. -/
def clientHandleMessage (cst : ClientState) (m : ClientIn) : ClientState :=
  match m with
  | .invalid => cst
  | .unknown => cst
  | .ret answerId _ =>
    match cst.callsInFlight.lookup answerId with
    | none => cst
    | some _ =>
      { cst with callsInFlight := deleteKey cst.callsInFlight answerId }
  | .exc answerId _ =>
    match cst.callsInFlight.lookup answerId with
    | none => cst
    | some _ =>
      { cst with callsInFlight := deleteKey cst.callsInFlight answerId }

/-! ## Supporting lemmas -/

instance exceptDecEq {ε α : Type} [DecidableEq ε] [DecidableEq α] :
    DecidableEq (Except ε α) := fun a b =>
  match a, b with
  | .error x, .error y =>
    if h : x = y then .isTrue (congrArg Except.error h)
    else .isFalse fun hc => h (Except.error.inj hc)
  | .error _, .ok _ => .isFalse fun hc => Except.noConfusion hc
  | .ok _, .error _ => .isFalse fun hc => Except.noConfusion hc
  | .ok x, .ok y =>
    if h : x = y then .isTrue (congrArg Except.ok h)
    else .isFalse fun hc => h (Except.ok.inj hc)

lemma lookup_mem {β : Type} {l : List (Value × β)} {k : Value} {v : β}
    (h : l.lookup k = some v) : ∃ k', (k', v) ∈ l := by
  induction l with
  | nil => simp [List.lookup] at h
  | cons hd tl ih =>
    obtain ⟨a, b⟩ := hd
    rw [List.lookup] at h
    cases hka : k == a with
    | true => rw [hka] at h; exact ⟨a, by simp_all⟩
    | false =>
      rw [hka] at h
      obtain ⟨k', hk'⟩ := ih h
      exact ⟨k', List.mem_cons_of_mem _ hk'⟩

lemma lookup_append_left {β : Type} {l : List (Value × β)} {k : Value} {v : β}
    (h : l.lookup k = some v) (l₂ : List (Value × β)) :
    (l ++ l₂).lookup k = some v := by
  induction l with
  | nil => simp [List.lookup] at h
  | cons hd tl ih =>
    obtain ⟨a, b⟩ := hd
    rw [List.lookup] at h
    rw [List.cons_append, List.lookup]
    cases hka : k == a with
    | true => rw [hka] at h; exact h
    | false => rw [hka] at h; exact ih h

lemma lookup_append_single {β : Type} {l : List (Value × β)} {k : Value}
    (h : l.lookup k = none) (v : β) : (l ++ [(k, v)]).lookup k = some v := by
  induction l with
  | nil => simp [List.lookup]
  | cons hd tl ih =>
    obtain ⟨a, b⟩ := hd
    rw [List.lookup] at h
    rw [List.cons_append, List.lookup]
    cases hka : k == a with
    | true => rw [hka] at h; simp at h
    | false => rw [hka] at h; exact ih h

lemma lookup_append_single_ne {β : Type} (l : List (Value × β)) {k q : Value}
    (h : k ≠ q) (v : β) : (l ++ [(q, v)]).lookup k = l.lookup k := by
  induction l with
  | nil =>
    have hkq : (k == q) = false := beq_eq_false_iff_ne.mpr h
    simp [List.lookup, hkq]
  | cons hd tl ih =>
    obtain ⟨a, b⟩ := hd
    rw [List.cons_append, List.lookup, List.lookup]
    cases hka : k == a with
    | true => rfl
    | false => exact ih

lemma lookup_registerQuestion_self (tbl : List (Value × QEntry)) (q : Value) :
    ((registerQuestion tbl q).lookup q).isSome := by
  unfold registerQuestion
  split
  · assumption
  · next h =>
    rw [lookup_append_single (Option.not_isSome_iff_eq_none.mp h)]
    rfl

lemma lookup_registerQuestion_ne (tbl : List (Value × QEntry)) {q k : Value}
    (h : k ≠ q) : (registerQuestion tbl q).lookup k = tbl.lookup k := by
  unfold registerQuestion
  split
  · rfl
  · exact lookup_append_single_ne tbl h _

lemma isSome_lookup_registerQuestion (tbl : List (Value × QEntry))
    (q k : Value) (h : (tbl.lookup k).isSome) :
    ((registerQuestion tbl q).lookup k).isSome := by
  unfold registerQuestion
  split
  · exact h
  · obtain ⟨v, hv⟩ := Option.isSome_iff_exists.mp h
    rw [lookup_append_left hv]
    rfl

lemma finalizeEntry_eq_of_key (q v : Value) (b : QEntry) :
    finalizeEntry q v (q, b) = (q, ⟨true, v, b.rejected⟩) := by
  unfold finalizeEntry; simp

lemma finalizeEntry_eq_of_ne {q a : Value} (hne : a ≠ q) (v : Value)
    (b : QEntry) : finalizeEntry q v (a, b) = (a, b) := by
  unfold finalizeEntry; simp [hne]

lemma lookup_map_finalizeEntry_isSome (tbl : List (Value × QEntry))
    (q v k : Value) :
    ((tbl.map (finalizeEntry q v)).lookup k).isSome = (tbl.lookup k).isSome := by
  induction tbl with
  | nil => rfl
  | cons hd tl ih =>
    obtain ⟨a, b⟩ := hd
    rw [List.map_cons]
    by_cases haq : a = q
    · rw [haq, finalizeEntry_eq_of_key, List.lookup, List.lookup]
      cases hka : k == q with
      | true => rfl
      | false => exact ih
    · rw [finalizeEntry_eq_of_ne haq, List.lookup, List.lookup]
      cases hka : k == a with
      | true => rfl
      | false => exact ih

lemma lookup_map_finalizeEntry_self (tbl : List (Value × QEntry))
    (q v : Value) :
    (tbl.map (finalizeEntry q v)).lookup q =
      (tbl.lookup q).map fun e => ⟨true, v, e.rejected⟩ := by
  induction tbl with
  | nil => rfl
  | cons hd tl ih =>
    obtain ⟨a, b⟩ := hd
    rw [List.map_cons]
    by_cases haq : a = q
    · rw [haq, finalizeEntry_eq_of_key, List.lookup, List.lookup]
      simp
    · rw [finalizeEntry_eq_of_ne haq, List.lookup, List.lookup]
      cases hka : q == a with
      | true => exact absurd (beq_iff_eq.mp hka).symm haq
      | false => exact ih

lemma dispatchCall_questionsInFlight (st : SState) (q : Value) (m : String)
    (args : List Value) :
    (dispatchCall st q m args).1.questionsInFlight = st.questionsInFlight := by
  unfold dispatchCall; split <;> rfl

lemma dispatchCall_tasks (st : SState) (q : Value) (m : String)
    (args : List Value) : (dispatchCall st q m args).1.tasks = st.tasks := by
  unfold dispatchCall; split <;> rfl

lemma dispatchReady_questionsInFlight (ready : List PendingCall) (st : SState) :
    (dispatchReady st ready).1.questionsInFlight = st.questionsInFlight := by
  induction ready generalizing st with
  | nil => rfl
  | cons t ts ih =>
    rw [dispatchReady]
    simp only []
    rw [ih, dispatchCall_questionsInFlight]

lemma dispatchReady_tasks (ready : List PendingCall) (st : SState) :
    (dispatchReady st ready).1.tasks = st.tasks := by
  induction ready generalizing st with
  | nil => rfl
  | cons t ts ih =>
    rw [dispatchReady]
    simp only []
    rw [ih, dispatchCall_tasks]

lemma finalizeQuestion_questionsInFlight (st : SState) (q v : Value) :
    (finalizeQuestion st q v).1.questionsInFlight =
      st.questionsInFlight.map (finalizeEntry q v) := by
  unfold finalizeQuestion
  rw [dispatchReady_questionsInFlight]

lemma handleMessage_call_eq (st : SState) (q : Value) (m : String)
    (ps : List Value) :
    handleMessage st (.call q m ps) =
      match resolveCallParams (registerQuestion st.questionsInFlight q) ps with
      | .error e =>
        ({ st with questionsInFlight := registerQuestion st.questionsInFlight q },
          [.exc q e])
      | .ok items =>
        if allResolved items then
          dispatchCall
            { st with questionsInFlight := registerQuestion st.questionsInFlight q }
            q m (resolvedArgsOf items)
        else
          ({ st with
              questionsInFlight := registerQuestion st.questionsInFlight q,
              tasks := st.tasks ++ [⟨q, m, items⟩] }, []) := rfl

lemma handleMessage_call_questionsInFlight (st : SState) (q : Value)
    (m : String) (ps : List Value) :
    (handleMessage st (.call q m ps)).1.questionsInFlight =
      registerQuestion st.questionsInFlight q := by
  rw [handleMessage_call_eq]
  cases hr : resolveCallParams (registerQuestion st.questionsInFlight q) ps with
  | error e => rfl
  | ok items =>
    simp only []
    split
    · rw [dispatchCall_questionsInFlight]
    · rfl


lemma fireTimer_of_timers_nil {st : SState} (h : st.timers = []) :
    fireTimer st = (st, []) := by
  obtain ⟨tbl, tasks, timers⟩ := st
  simp only at h
  subst h
  rfl

lemma serverRun_replicate_timer {st : SState} (h : st.timers = []) (n : Nat) :
    serverRun st (List.replicate n .timer) = (st, []) := by
  induction n with
  | zero => rfl
  | succ m ih =>
    rw [List.replicate_succ, serverRun]
    simp only [serverStep, fireTimer_of_timers_nil h, ih]
    rfl

/-- No table entry has ever had its reject continuation invoked. -/
def rejFree (tbl : List (Value × QEntry)) : Bool :=
  tbl.all fun kv => !kv.2.rejected

lemma rejFree_registerQuestion {tbl : List (Value × QEntry)} (q : Value)
    (h : rejFree tbl = true) : rejFree (registerQuestion tbl q) = true := by
  unfold registerQuestion
  split
  · exact h
  · unfold rejFree at h ⊢
    rw [List.all_append, h]
    rfl

lemma rejFree_map_finalizeEntry {tbl : List (Value × QEntry)} (q v : Value)
    (h : rejFree tbl = true) :
    rejFree (tbl.map (finalizeEntry q v)) = true := by
  unfold rejFree at h ⊢
  rw [List.all_eq_true] at h ⊢
  intro kv hkv
  obtain ⟨x, hx, rfl⟩ := List.mem_map.mp hkv
  have hx2 := h x hx
  unfold finalizeEntry
  split
  · simpa using hx2
  · exact hx2

lemma rejFree_serverStep {st : SState} (ev : SEv)
    (h : rejFree st.questionsInFlight = true) :
    rejFree (serverStep st ev).1.questionsInFlight = true := by
  cases ev with
  | recv m =>
    cases m with
    | invalid => exact h
    | other => exact h
    | call q mth ps =>
      show rejFree (handleMessage st (.call q mth ps)).1.questionsInFlight = true
      rw [handleMessage_call_questionsInFlight]
      exact rejFree_registerQuestion q h
  | timer =>
    show rejFree (fireTimer st).1.questionsInFlight = true
    obtain ⟨tbl, tasks, timers⟩ := st
    cases timers with
    | nil => exact h
    | cons t rest =>
      show rejFree (finalizeQuestion ⟨tbl, tasks, rest⟩ t.questionId
        (runMethodBody t.method t.args)).1.questionsInFlight = true
      rw [finalizeQuestion_questionsInFlight]
      exact rejFree_map_finalizeEntry _ _ h

lemma rejFree_serverRun {st : SState} (evs : List SEv)
    (h : rejFree st.questionsInFlight = true) :
    rejFree (serverRun st evs).1.questionsInFlight = true := by
  induction evs generalizing st with
  | nil => exact h
  | cons e es ih =>
    rw [serverRun]
    exact ih (rejFree_serverStep e h)

lemma rejected_false_of_lookup {tbl : List (Value × QEntry)} {q : Value}
    {e : QEntry} (h : rejFree tbl = true) (hl : tbl.lookup q = some e) :
    e.rejected = false := by
  obtain ⟨k', hm⟩ := lookup_mem hl
  have hx := List.all_eq_true.mp h _ hm
  simpa using hx

lemma isSome_serverStep {st : SState} (ev : SEv) (k : Value)
    (h : (st.questionsInFlight.lookup k).isSome) :
    ((serverStep st ev).1.questionsInFlight.lookup k).isSome := by
  cases ev with
  | recv m =>
    cases m with
    | invalid => exact h
    | other => exact h
    | call q mth ps =>
      show ((handleMessage st (.call q mth ps)).1.questionsInFlight.lookup
        k).isSome
      rw [handleMessage_call_questionsInFlight]
      exact isSome_lookup_registerQuestion _ q k h
  | timer =>
    show ((fireTimer st).1.questionsInFlight.lookup k).isSome
    obtain ⟨tbl, tasks, timers⟩ := st
    cases timers with
    | nil => exact h
    | cons t rest =>
      show (((finalizeQuestion ⟨tbl, tasks, rest⟩ t.questionId
        (runMethodBody t.method t.args)).1.questionsInFlight).lookup k).isSome
      rw [finalizeQuestion_questionsInFlight]
      show (((⟨tbl, tasks, rest⟩ : SState).questionsInFlight.map
        (finalizeEntry t.questionId (runMethodBody t.method t.args))).lookup
          k).isSome
      rw [lookup_map_finalizeEntry_isSome]
      exact h

lemma isSome_serverRun {st : SState} (evs : List SEv) (k : Value)
    (h : (st.questionsInFlight.lookup k).isSome) :
    ((serverRun st evs).1.questionsInFlight.lookup k).isSome := by
  induction evs generalizing st with
  | nil => exact h
  | cons e es ih =>
    rw [serverRun]
    exact ih (isSome_serverStep e k h)

lemma maybeResolveParam_of_not_ref {p : Value} (h : isRefParam p = false)
    (tbl : List (Value × QEntry)) :
    maybeResolveParam tbl p = .ok (.val p) := by
  cases p with
  | obj fields =>
    simp only [isRefParam] at h
    simp [maybeResolveParam, h]
  | null => rfl
  | undefined => rfl
  | bool b => rfl
  | num n => rfl
  | str s => rfl
  | arr xs => rfl

lemma maybeResolveParam_refTo_unknown {tbl : List (Value × QEntry)}
    {r : Value} (h : tbl.lookup r = none) :
    maybeResolveParam tbl (refTo r) =
      .error ("Reference to unknown call #" ++ jsToString r) := by
  simp [maybeResolveParam, refTo, FieldList.hasField, FieldList.getField, h]

lemma maybeResolveParam_refTo_found {tbl : List (Value × QEntry)}
    {r : Value} {e : QEntry} (h : tbl.lookup r = some e) :
    maybeResolveParam tbl (refTo r) =
      .ok (if e.done then .val e.result else .blockedOn r) := by
  cases hd : e.done <;>
    simp [maybeResolveParam, refTo, FieldList.hasField, FieldList.getField,
      h, hd]

lemma resolveCallParams_unknown_ref {tbl : List (Value × QEntry)}
    {vs₁ : List Value} {r : Value} (vs₂ : List Value)
    (h1 : ∀ p ∈ vs₁, isRefParam p = false) (h2 : tbl.lookup r = none) :
    resolveCallParams tbl (vs₁ ++ refTo r :: vs₂) =
      .error ("Reference to unknown call #" ++ jsToString r) := by
  induction vs₁ with
  | nil =>
    rw [List.nil_append, resolveCallParams,
      maybeResolveParam_refTo_unknown h2]
  | cons p rest ih =>
    rw [List.cons_append, resolveCallParams,
      maybeResolveParam_of_not_ref (h1 p (List.mem_cons_self p rest)) tbl,
      ih fun x hx => h1 x (List.mem_cons_of_mem p hx)]

lemma lookup_deleteKey (tbl : List (Value × CEntry)) (k : Value) :
    (deleteKey tbl k).lookup k = none := by
  induction tbl with
  | nil => rfl
  | cons hd tl ih =>
    obtain ⟨a, b⟩ := hd
    unfold deleteKey
    rw [List.filter_cons]
    split
    · next hcond =>
      have hne : ¬(a == k) = true := by simpa using hcond
      have hka : (k == a) = false := by
        refine beq_eq_false_iff_ne.mpr fun hc => ?_
        exact hne (beq_iff_eq.mpr hc.symm)
      rw [List.lookup, hka]
      exact ih
    · exact ih

/-! ## Scenario schedules -/

/-- The pipelined demo: Call#1 `makeGreeting("Alice")` and, before any reply
has been produced, Call#2 `appendSuffix({resultOf:1}, "!!!")`; then the two
handler timers fire in creation order. -/
def pipelinedDemo : List SEv :=
  [.recv (.call (.num 1) "makeGreeting" [.str "Alice"]),
   .recv (.call (.num 2) "appendSuffix" [refTo (.num 1), .str "!!!"]),
   .timer, .timer]

/-- A Call that fails (unknown method), followed by a pipelined Call whose
parameter references the failed question. -/
def failedDependent : List SEv :=
  [.recv (.call (.num 1) "bogus" []),
   .recv (.call (.num 2) "appendSuffix" [refTo (.num 1), .str "!!!"])]

/-- An undecodable frame followed by a well-formed Call on the same
connection. -/
def invalidThenCall : List SEv :=
  [.recv .invalid,
   .recv (.call (.num 1) "makeGreeting" [.str "Alice"]),
   .timer]

/-! ## Claim C1 -/

/-- Claim C1, counterexample.  In the pipelined scenario the run emits the
Return for #1 with "Hello, Alice!" and the Return for #2 with
"Hello, Alice!!!!" (four exclamation marks: `appendSuffix` appends "!!!" to
"Hello, Alice!", which already ends in "!").  No Return carrying the claimed
"Hello, Alice!!!" (three exclamation marks) is ever emitted. -/
theorem c1_counterexample :
    (serverRun SState.initial pipelinedDemo).2 =
      [.ret (.num 1) (.str "Hello, Alice!"),
       .ret (.num 2) (.str "Hello, Alice!!!!")] ∧
    Frame.ret (.num 2) (.str "Hello, Alice!!!") ∉
      (serverRun SState.initial pipelinedDemo).2 := by
  decide

/-- Claim C1, amended: in the pipelined scenario the server eventually emits
a Return with answerId 2 whose result is "Hello, Alice!!!!" (the greeting
"Hello, Alice!" with the suffix "!!!" appended) and a Return with answerId 1
whose result is "Hello, Alice!". -/
theorem c1_theorem :
    Frame.ret (.num 2) (.str "Hello, Alice!!!!") ∈
      (serverRun SState.initial pipelinedDemo).2 ∧
    Frame.ret (.num 1) (.str "Hello, Alice!") ∈
      (serverRun SState.initial pipelinedDemo).2 := by
  decide

/-! ## Claim C2 -/

/-- Claim C2: on any inbound Call the question id is registered synchronously
before parameter resolution begins — after processing the Call frame the
table always holds the id, and resolving a pipelined reference to that id
against the handler's table never fails with an unknown-question error (it
yields a resolution outcome, resolved or suspended). -/
theorem c2_theorem :
    ∀ (st : SState) (q : Value) (m : String) (ps : List Value),
      (((handleMessage st (.call q m ps)).1.questionsInFlight).lookup
        q).isSome = true ∧
      ∃ r, maybeResolveParam
        (handleMessage st (.call q m ps)).1.questionsInFlight (refTo q) =
          .ok r := by
  intro st q m ps
  rw [handleMessage_call_questionsInFlight]
  refine ⟨lookup_registerQuestion_self _ q, ?_⟩
  obtain ⟨e, he⟩ :=
    Option.isSome_iff_exists.mp (lookup_registerQuestion_self st.questionsInFlight q)
  rw [maybeResolveParam_refTo_found he]
  exact ⟨_, rfl⟩

/-! ## Claim C3 -/

/-- Claim C3: the worker never rejects a question entry (every reachable
table entry has an uninvoked reject continuation); when a Call fails, an
Exception frame is emitted but the entry is not marked done; and a pipelined
Call referencing the failed question suspends indefinitely — no further
internal progress (timer firings) ever produces any frame, so its reply is
never produced. -/
theorem c3_theorem :
    (∀ (evs : List SEv) (q : Value) (e : QEntry),
      (serverRun SState.initial evs).1.questionsInFlight.lookup q = some e →
        e.rejected = false) ∧
    (serverRun SState.initial failedDependent).2 =
      [.exc (.num 1) "Unknown method \"bogus\""] ∧
    ((serverRun SState.initial failedDependent).1.questionsInFlight.lookup
      (.num 1)).map QEntry.done = some false ∧
    ∀ n : Nat,
      (serverRun (serverRun SState.initial failedDependent).1
        (List.replicate n .timer)).2 = [] := by
  refine ⟨?_, by decide, by decide, ?_⟩
  · intro evs q e hl
    exact rejected_false_of_lookup
      (@rejFree_serverRun SState.initial evs (by decide)) hl
  · intro n
    have ht : (serverRun SState.initial failedDependent).1.timers = [] := by
      decide
    rw [serverRun_replicate_timer ht n]

/-- Claim C3, witness: after the failed-dependent scenario the failed
question's entry is concretely `{done: false, result: null, rejected:
false}`, and the theorem's invariant applies to it. -/
theorem c3_witness :
    (serverRun SState.initial failedDependent).1.questionsInFlight.lookup
      (.num 1) = some ⟨false, .null, false⟩ ∧
    QEntry.rejected ⟨false, .null, false⟩ = false :=
  ⟨by decide,
    c3_theorem.1 failedDependent (.num 1) ⟨false, .null, false⟩ (by decide)⟩

/-! ## Claim C4 -/

/-- Claim C4, counterexample.  `finalizeQuestion` has no terminal-state
guard: invoking it a second time for question 1 (first with "a", then with
"b") emits no frame at all — there is no ProtocolViolation outcome anywhere
in the worker — and the stored value is silently replaced by "b". -/
theorem c4_counterexample :
    (finalizeQuestion
        (finalizeQuestion ⟨registerQuestion [] (.num 1), [], []⟩
          (.num 1) (.str "a")).1
        (.num 1) (.str "b")).1.questionsInFlight.lookup (.num 1) =
      some ⟨true, .str "b", false⟩ ∧
    (finalizeQuestion
        (finalizeQuestion ⟨registerQuestion [] (.num 1), [], []⟩
          (.num 1) (.str "a")).1
        (.num 1) (.str "b")).2 = [] := by
  decide

/-- Claim C4, amended: `finalizeQuestion` performs no terminal-state check;
a second invocation for an already-finalized question id does not fail, and
the second value silently replaces the first stored value (the entry stays
done). -/
theorem c4_theorem :
    ∀ (st : SState) (q v₁ v₂ : Value) (e : QEntry),
      st.questionsInFlight.lookup q = some e →
      (finalizeQuestion (finalizeQuestion st q v₁).1 q
        v₂).1.questionsInFlight.lookup q = some ⟨true, v₂, e.rejected⟩ := by
  intro st q v1 v2 e h
  rw [finalizeQuestion_questionsInFlight, lookup_map_finalizeEntry_self,
    finalizeQuestion_questionsInFlight, lookup_map_finalizeEntry_self, h]
  rfl

/-- Claim C4, witness: the amended theorem applied to a table holding a
pending entry for question 1. -/
theorem c4_witness :
    (SState.questionsInFlight
        ⟨[(.num 1, ⟨false, .null, false⟩)], [], []⟩).lookup (.num 1) =
      some ⟨false, .null, false⟩ ∧
    (finalizeQuestion
        (finalizeQuestion ⟨[(.num 1, ⟨false, .null, false⟩)], [], []⟩
          (.num 1) (.str "a")).1
        (.num 1) (.str "b")).1.questionsInFlight.lookup (.num 1) =
      some ⟨true, .str "b", false⟩ :=
  ⟨by decide,
    c4_theorem ⟨[(.num 1, ⟨false, .null, false⟩)], [], []⟩ (.num 1)
      (.str "a") (.str "b") ⟨false, .null, false⟩ (by decide)⟩

/-! ## Claim C5 -/

/-- Claim C5, counterexample.  On the issuer side entries do not persist:
after `callPipelined` registers question 1, processing its Return deletes
the entry from `callsInFlight` — the lookup that succeeded before the Return
fails after it. -/
theorem c5_counterexample :
    ((callPipelined ⟨true, 1, []⟩ "makeGreeting"
        [.str "Alice"]).1.callsInFlight.lookup (.num 1)).isSome = true ∧
    (clientHandleMessage
        (callPipelined ⟨true, 1, []⟩ "makeGreeting" [.str "Alice"]).1
        (.ret (.num 1) (.str "Hello, Alice!"))).callsInFlight.lookup
      (.num 1) = none := by
  decide

/-- Claim C5, amended: on the resolving side a registered question entry
persists for the life of the connection (every schedule preserves it, also
across its Return); on the issuer side the entry is removed from
`callsInFlight` as soon as its Return or Exception is processed. -/
theorem c5_theorem :
    (∀ (st : SState) (evs : List SEv) (q : Value),
      (st.questionsInFlight.lookup q).isSome = true →
      ((serverRun st evs).1.questionsInFlight.lookup q).isSome = true) ∧
    (∀ (cst : ClientState) (a v : Value),
      (clientHandleMessage cst (.ret a v)).callsInFlight.lookup a = none) ∧
    (∀ (cst : ClientState) (a : Value) (e : String),
      (clientHandleMessage cst (.exc a e)).callsInFlight.lookup a = none) := by
  refine ⟨?_, ?_, ?_⟩
  · intro st evs q h
    exact isSome_serverRun evs q h
  · intro cst a v
    have heq : clientHandleMessage cst (.ret a v) =
        match cst.callsInFlight.lookup a with
        | none => cst
        | some _ =>
          { cst with callsInFlight := deleteKey cst.callsInFlight a } := rfl
    rw [heq]
    cases hl : cst.callsInFlight.lookup a with
    | none => exact hl
    | some entry => exact lookup_deleteKey _ _
  · intro cst a e
    have heq : clientHandleMessage cst (.exc a e) =
        match cst.callsInFlight.lookup a with
        | none => cst
        | some _ =>
          { cst with callsInFlight := deleteKey cst.callsInFlight a } := rfl
    rw [heq]
    cases hl : cst.callsInFlight.lookup a with
    | none => exact hl
    | some entry => exact lookup_deleteKey _ _

/-- Claim C5, witness: the server-side persistence conjunct applied to a
table holding question 7, across a schedule that fires a timer. -/
theorem c5_witness :
    ((SState.questionsInFlight
        ⟨[(.num 7, ⟨false, .null, false⟩)], [], []⟩).lookup (.num 7)).isSome =
      true ∧
    ((serverRun ⟨[(.num 7, ⟨false, .null, false⟩)], [], []⟩
        [.timer]).1.questionsInFlight.lookup (.num 7)).isSome = true :=
  ⟨by decide,
    c5_theorem.1 ⟨[(.num 7, ⟨false, .null, false⟩)], [], []⟩ [.timer]
      (.num 7) (by decide)⟩

/-! ## Claim C6 -/

/-- Claim C6: a Reference to an id that was never registered (and is not the
calling question's own id, which the Call registers first) fails immediately
— the handler suspends on nothing, creates no task and no timer — emitting
exactly one Exception for the referencing call's own id with the
unknown-call message, and it leaves every other question's table entry, and
all suspended tasks and pending timers (hence every other in-flight call's
eventual reply), unchanged. -/
theorem c6_theorem :
    ∀ (st : SState) (q : Value) (m : String) (vs₁ vs₂ : List Value)
      (r : Value),
      (∀ p ∈ vs₁, isRefParam p = false) →
      st.questionsInFlight.lookup r = none →
      r ≠ q →
      handleMessage st (.call q m (vs₁ ++ refTo r :: vs₂)) =
        ({ st with questionsInFlight :=
            registerQuestion st.questionsInFlight q },
          [.exc q ("Reference to unknown call #" ++ jsToString r)]) ∧
      ∀ k, k ≠ q →
        (handleMessage st
            (.call q m (vs₁ ++ refTo r :: vs₂))).1.questionsInFlight.lookup
          k = st.questionsInFlight.lookup k := by
  intro st q m vs1 vs2 r h1 h2 hrq
  have h2' : (registerQuestion st.questionsInFlight q).lookup r = none := by
    rw [lookup_registerQuestion_ne _ hrq]
    exact h2
  have herr := resolveCallParams_unknown_ref vs2 h1 h2'
  refine ⟨?_, ?_⟩
  · rw [handleMessage_call_eq, herr]
  · intro k hk
    rw [handleMessage_call_questionsInFlight, lookup_registerQuestion_ne _ hk]

/-- Claim C6, witness: on a fresh connection, a Call whose second parameter
references the unregistered id 9 aborts with exactly the unknown-call
Exception for its own id 5. -/
theorem c6_witness :
    SState.initial.questionsInFlight.lookup (.num 9) = none ∧
    handleMessage SState.initial
        (.call (.num 5) "appendSuffix" ([.str "x"] ++ refTo (.num 9) :: [])) =
      (⟨registerQuestion [] (.num 5), [], []⟩,
        [.exc (.num 5)
          ("Reference to unknown call #" ++ jsToString (.num 9))]) :=
  ⟨by decide,
    (c6_theorem SState.initial (.num 5) "appendSuffix" [.str "x"] []
      (.num 9)
      (by intro p hp; cases hp with
        | head => decide
        | tail _ hq => cases hq)
      (by decide) (by decide)).1⟩

/-! ## Claim C7 -/

/-- A one-entry table whose question 2 is fulfilled with "X". -/
def fulfilledTable : List (Value × QEntry) := [(.num 2, ⟨true, .str "X", false⟩)]

/-- Claim C7, counterexample.  The recognition test is `"resultOf" in param`,
not an exact-shape test: the parameter `{a: 1, resultOf: 2}` — whose
top-level shape is not `{resultOf: id}`, and which even contains a nested
`{resultOf: 2}` in its variant `{a: {resultOf: 2}, resultOf: 2}` — is treated
as a Reference and substituted with question 2's value instead of being
passed to the handler unchanged. -/
theorem c7_counterexample :
    maybeResolveParam fulfilledTable
        (.obj (.cons "a" (.num 1) (.cons "resultOf" (.num 2) .nil))) =
      .ok (.val (.str "X")) ∧
    (Value.obj (.cons "a" (.num 1) (.cons "resultOf" (.num 2) .nil)) ≠
      refTo (.num 2)) ∧
    maybeResolveParam fulfilledTable
        (.obj (.cons "a" (.num 1) (.cons "resultOf" (.num 2) .nil))) ≠
      .ok (.val
        (.obj (.cons "a" (.num 1) (.cons "resultOf" (.num 2) .nil)))) ∧
    maybeResolveParam fulfilledTable
        (.obj (.cons "a" (refTo (.num 2))
          (.cons "resultOf" (.num 2) .nil))) ≠
      .ok (.val
        (.obj (.cons "a" (refTo (.num 2))
          (.cons "resultOf" (.num 2) .nil)))) := by
  decide

/-- Claim C7, amended: a parameter is treated as a Reference exactly when it
is an object carrying a top-level `resultOf` key (extra keys permitted), in
which case it is substituted with the value of the question named by that
key (or suspends on it); every parameter without a top-level `resultOf` key
— including composite values with references nested inside — is passed
through unchanged. -/
theorem c7_theorem :
    (∀ (tbl : List (Value × QEntry)) (p : Value),
      isRefParam p = false → maybeResolveParam tbl p = .ok (.val p)) ∧
    (∀ (tbl : List (Value × QEntry)) (fields : FieldList) (e : QEntry),
      fields.hasField "resultOf" = true →
      tbl.lookup ((fields.getField "resultOf").getD .undefined) = some e →
      e.done = true →
      maybeResolveParam tbl (.obj fields) = .ok (.val e.result)) ∧
    (∀ (tbl : List (Value × QEntry)) (fields : FieldList) (e : QEntry),
      fields.hasField "resultOf" = true →
      tbl.lookup ((fields.getField "resultOf").getD .undefined) = some e →
      e.done = false →
      maybeResolveParam tbl (.obj fields) =
        .ok (.blockedOn ((fields.getField "resultOf").getD .undefined))) := by
  refine ⟨?_, ?_, ?_⟩
  · intro tbl p h
    exact maybeResolveParam_of_not_ref h tbl
  · intro tbl fields e hHas hLook hDone
    simp [maybeResolveParam, hHas, hLook, hDone]
  · intro tbl fields e hHas hLook hDone
    simp [maybeResolveParam, hHas, hLook, hDone]

/-- Claim C7, witness: a composite parameter with a reference nested inside
but no top-level resultOf key passes through unchanged even though the
referenced question is fulfilled, and a top-level reference to that question
is substituted. -/
theorem c7_witness :
    isRefParam (.obj (.cons "inner" (refTo (.num 2)) .nil)) = false ∧
    maybeResolveParam fulfilledTable
        (.obj (.cons "inner" (refTo (.num 2)) .nil)) =
      .ok (.val (.obj (.cons "inner" (refTo (.num 2)) .nil))) ∧
    FieldList.hasField (.cons "resultOf" (.num 2) .nil) "resultOf" = true ∧
    maybeResolveParam fulfilledTable (.obj (.cons "resultOf" (.num 2) .nil)) =
      .ok (.val (.str "X")) :=
  ⟨by decide,
    c7_theorem.1 fulfilledTable (.obj (.cons "inner" (refTo (.num 2)) .nil))
      (by decide),
    by decide,
    c7_theorem.2.1 fulfilledTable (.cons "resultOf" (.num 2) .nil)
      ⟨true, .str "X", false⟩ (by decide) (by decide) (by decide)⟩

/-! ## Claim C8 -/

/-- Claim C8: whenever parameter resolution of a Call fails, the handler
emits exactly one frame — an Exception whose answerId is the calling
question's id and whose error is the resolution failure's message — and the
resulting state differs from the incoming one only by the registration of
the calling question: no task is created and no timer is scheduled, so the
method handler is never invoked. -/
theorem c8_theorem :
    ∀ (st : SState) (q : Value) (m : String) (ps : List Value) (e : String),
      resolveCallParams (registerQuestion st.questionsInFlight q) ps =
        .error e →
      handleMessage st (.call q m ps) =
        ({ st with questionsInFlight :=
            registerQuestion st.questionsInFlight q },
          [.exc q e]) := by
  intro st q m ps e h
  rw [handleMessage_call_eq, h]

/-- Claim C8, witness: on a fresh connection, a Call whose only parameter
references the unregistered id 9 yields exactly the one Exception for its
own id 3, and no handler runs. -/
theorem c8_witness :
    resolveCallParams (registerQuestion SState.initial.questionsInFlight
        (.num 3)) [refTo (.num 9)] =
      .error "Reference to unknown call #9" ∧
    handleMessage SState.initial (.call (.num 3) "makeGreeting"
        [refTo (.num 9)]) =
      (⟨registerQuestion [] (.num 3), [], []⟩,
        [.exc (.num 3) "Reference to unknown call #9"]) :=
  ⟨by decide,
    c8_theorem SState.initial (.num 3) "makeGreeting" [refTo (.num 9)]
      "Reference to unknown call #9" (by decide)⟩

/-! ## Claim C9 -/

/-- Claim C9: an undecodable frame produces exactly one
Exception{answerId: 0, error: "Invalid JSON"} and changes nothing in the
connection's state (the connection stays open, its table, tasks and timers
untouched — true in any state, not just the initial one); a subsequent
well-formed Call on the same connection is processed and completes normally
with its Return. -/
theorem c9_theorem :
    (∀ st : SState,
      handleMessage st .invalid = (st, [.exc (.num 0) "Invalid JSON"])) ∧
    (serverRun SState.initial invalidThenCall).2 =
      [.exc (.num 0) "Invalid JSON", .ret (.num 1) (.str "Hello, Alice!")] :=
  ⟨fun _ => rfl, by decide⟩

/-! ## Claim C10 -/

/-- Claim C10: `callPipelined` invoked while the socket is not open sends no
frame, registers nothing (the client state is returned unchanged, the id
counter not advanced) and synchronously returns the sentinel
`{resultOf: -1}`; `awaitResult` on that sentinel throws
"No call in flight for #-1" synchronously instead of suspending (given that
id -1, never allocated by the client, is absent from `callsInFlight`). -/
theorem c10_theorem :
    ∀ (cst : ClientState) (m : String) (ps : List Value),
      cst.wsOpen = false →
      cst.callsInFlight.lookup (.num (-1)) = none →
      callPipelined cst m ps = (cst, none, refTo (.num (-1))) ∧
      awaitResult cst (refTo (.num (-1))) =
        .thrown "No call in flight for #-1" := by
  intro cst m ps h1 h2
  constructor
  · simp [callPipelined, h1]
  · simp [awaitResult, refTo, FieldList.hasField, FieldList.getField, h2]
    rfl

/-- Claim C10, witness: the theorem applied to a client whose socket is not
open and whose table is empty. -/
theorem c10_witness :
    (ClientState.wsOpen ⟨false, 1, []⟩ = false) ∧
    (ClientState.callsInFlight ⟨false, 1, []⟩).lookup (.num (-1)) = none ∧
    (callPipelined ⟨false, 1, []⟩ "makeGreeting" [.str "Alice"] =
        (⟨false, 1, []⟩, none, refTo (.num (-1))) ∧
      awaitResult ⟨false, 1, []⟩ (refTo (.num (-1))) =
        .thrown "No call in flight for #-1") :=
  ⟨by decide, by decide,
    c10_theorem ⟨false, 1, []⟩ "makeGreeting" [.str "Alice"] (by decide)
      (by decide)⟩
